import Mathlib

/-!
Verification of the ChatBot_ver2 retrieval-augmented query pipeline
against its specification.  The backend implementation files
(`backend/app/services/retry.py`, `openai_client.py`, `rag/*.py`,
`ingest/*.py`) are not shipped in this snapshot; the low-level design
documents (`docs/LLD/*.md`) carry the reference listings for the retry
and credential-pool logic, and the remaining components are modelled
from the specification's own description.  The frontend HTTP helper
(`frontend/src/api/http.js`) is present and embedded directly.
-/

namespace ChatBot

/-! ### Gateway retry logic (docs/LLD/8-error.md §8.3, 7-performance.md §7.4) -/

/-- Outcome of one upstream LLM/embedding call in a simulated schedule:
either a success carrying a value, or a raised exception carrying the
optional `status_code` attribute of the Python exception object. -/
inductive CallOutcome (α : Type) where
  | success (v : α)
  | failure (status : Option Nat)
deriving Repr, DecidableEq

/-- Trace of one `retry_with_backoff` run: how many times the wrapped
function was called, which delays were slept (in seconds), and the
final result (`Except.error` is the surfaced exception). -/
structure RetryTrace (α : Type) where
  calls : Nat
  sleeps : List ℚ
  result : Except (Option Nat) α
deriving Repr

/-- Statuses retried by `retry_with_backoff`
(`e.status_code in (429, 500, 502, 503)` in docs/LLD/8-error.md). -/
def retryableStatuses : List Nat := [429, 500, 502, 503]

/-- Whether a raised exception is retryable: it must carry a
`status_code` attribute whose value is in `retryableStatuses`. -/
def isRetryable : Option Nat → Bool
  | some s => retryableStatuses.contains s
  | none => false

/-- Loop body of `retry_with_backoff` (docs/LLD/8-error.md §8.3).
`attempt` is the current loop index, `remaining` the number of loop
iterations left (`max_retries - attempt`), `delay` the current backoff
delay.  `outcome i` scripts the result of the i-th call to `func`.
The `remaining = 0` base case is unreachable for `max_retries > 0`. -/
def retryGo {α : Type} (outcome : Nat → CallOutcome α) (factor maxDelay : ℚ) :
    Nat → Nat → ℚ → RetryTrace α
  | _attempt, 0, _delay => { calls := 0, sleeps := [], result := .error none }
  | attempt, remaining + 1, delay =>
    match outcome attempt with
    | .success v => { calls := 1, sleeps := [], result := .ok v }
    | .failure status =>
      if remaining = 0 then
        { calls := 1, sleeps := [], result := .error status }
      else if isRetryable status then
        let rest := retryGo outcome factor maxDelay (attempt + 1) remaining (delay * factor)
        { calls := rest.calls + 1, sleeps := min delay maxDelay :: rest.sleeps,
          result := rest.result }
      else
        { calls := 1, sleeps := [], result := .error status }

/-- Shallow embedding of `retry_with_backoff` from docs/LLD/8-error.md
§8.3 (the implementation file `backend/app/services/retry.py` is not in
this snapshot; the LLD carries the listing).  Defaults in the source:
`max_retries=3, initial_delay=1.0, max_delay=60.0, backoff_factor=2.0`. -/
def retry_with_backoff {α : Type} (outcome : Nat → CallOutcome α)
    (maxRetries : Nat) (initialDelay maxDelay factor : ℚ) : RetryTrace α :=
  retryGo outcome factor maxDelay 0 maxRetries initialDelay

end ChatBot

namespace ChatBot

theorem retryGo_calls_pos {α : Type} (outcome : Nat → CallOutcome α)
    (factor maxDelay : ℚ) (attempt remaining : Nat) (delay : ℚ) :
    1 ≤ (retryGo outcome factor maxDelay attempt (remaining + 1) delay).calls := by
  cases h : outcome attempt with
  | success v => simp [retryGo, h]
  | failure status =>
    by_cases hr : remaining = 0
    · simp [retryGo, h, hr]
    · by_cases hs : isRetryable status
      · simp [retryGo, h, hr, hs]
      · simp [retryGo, h, hr, hs]

theorem retryGo_retried {α : Type} (outcome : Nat → CallOutcome α)
    (factor maxDelay : ℚ) :
    ∀ (remaining attempt : Nat) (delay : ℚ) (i : Nat), attempt ≤ i →
      i + 1 < attempt + (retryGo outcome factor maxDelay attempt remaining delay).calls →
      ∃ s, outcome i = .failure s ∧ isRetryable s = true := by
  intro remaining
  induction remaining with
  | zero =>
    intro attempt delay i hle hlt
    simp [retryGo] at hlt
    omega
  | succ rem ih =>
    intro attempt delay i hle hlt
    cases h : outcome attempt with
    | success v => simp [retryGo, h] at hlt; omega
    | failure status =>
      by_cases hr : rem = 0
      · simp [retryGo, h, hr] at hlt; omega
      · by_cases hs : isRetryable status
        · rcases Nat.eq_or_lt_of_le hle with heq | hlt'
          · exact ⟨status, heq ▸ h, hs⟩
          · simp only [retryGo, h, if_neg hr, if_pos hs] at hlt
            exact ih (attempt + 1) (delay * factor) i hlt' (by omega)
        · simp [retryGo, h, hr, hs] at hlt; omega

/-- C2: a Gateway call whose first four upstream responses are all
rate-limit errors (HTTP 429) makes exactly 3 attempts under
`retry_with_backoff` with the source defaults (max_retries=3,
initial_delay=1s, backoff factor 2, cap 60s), sleeps the exponential
backoff delays 1s and 2s between them, and then surfaces the rate-limit
failure to the caller; since only 3 calls are issued, a 4th retry never
happens (the 4th scripted response is never consumed). -/
theorem retry_rate_limit_bound {α : Type} (outcome : Nat → CallOutcome α)
    (h : ∀ i, i < 4 → outcome i = .failure (some 429)) :
    (retry_with_backoff outcome 3 1 60 2).calls = 3 ∧
    (retry_with_backoff outcome 3 1 60 2).sleeps = [1, 2] ∧
    (retry_with_backoff outcome 3 1 60 2).result = .error (some 429) := by
  have h0 := h 0 (by omega)
  have h1 := h 1 (by omega)
  have h2 := h 2 (by omega)
  refine ⟨?_, ?_, ?_⟩ <;>
    norm_num [retry_with_backoff, retryGo, h0, h1, h2, isRetryable, retryableStatuses]

/-- C2 witness: the concrete schedule answering 429 on every call. -/
theorem retry_rate_limit_bound_spot :
    (retry_with_backoff (fun _ => CallOutcome.failure (α := Unit) (some 429)) 3 1 60 2).calls = 3 ∧
    (retry_with_backoff (fun _ => CallOutcome.failure (α := Unit) (some 429)) 3 1 60 2).sleeps = [1, 2] ∧
    (retry_with_backoff (fun _ => CallOutcome.failure (α := Unit) (some 429)) 3 1 60 2).result = .error (some 429) :=
  retry_rate_limit_bound (fun _ => CallOutcome.failure (some 429)) (fun _ _ => rfl)

/-- C9: an upstream call that fails with a non-retryable (4xx bad-input
class) status is never retried — `retry_with_backoff` makes exactly one
call, sleeps no backoff delay, and surfaces the failure immediately;
and conversely, whenever a further call is issued after call `i`, the
i-th response was a failure whose status is in the retryable set
{429, 500, 502, 503} (rate limit and 5xx class only). -/
theorem retry_never_retries_bad_input {α : Type} (outcome : Nat → CallOutcome α) :
    (∀ s : Nat, outcome 0 = .failure (some s) → isRetryable (some s) = false →
      (retry_with_backoff outcome 3 1 60 2).calls = 1 ∧
      (retry_with_backoff outcome 3 1 60 2).sleeps = [] ∧
      (retry_with_backoff outcome 3 1 60 2).result = .error (some s)) ∧
    (∀ i : Nat, i + 1 < (retry_with_backoff outcome 3 1 60 2).calls →
      ∃ s, outcome i = .failure s ∧ isRetryable s = true) := by
  constructor
  · intro s h0 hs
    refine ⟨?_, ?_, ?_⟩ <;> simp [retry_with_backoff, retryGo, h0, hs]
  · intro i hi
    exact retryGo_retried outcome 2 60 3 0 1 i (Nat.zero_le i) (by simpa using hi)

/-- C9 witness: a 400 Bad Request is surfaced after a single call. -/
theorem retry_never_retries_bad_input_spot :
    (retry_with_backoff (fun _ => CallOutcome.failure (α := Unit) (some 400)) 3 1 60 2).calls = 1 ∧
    (retry_with_backoff (fun _ => CallOutcome.failure (α := Unit) (some 400)) 3 1 60 2).sleeps = [] ∧
    (retry_with_backoff (fun _ => CallOutcome.failure (α := Unit) (some 400)) 3 1 60 2).result = .error (some 400) :=
  (retry_never_retries_bad_input (fun _ => CallOutcome.failure (some 400))).1 400 rfl (by decide)

/-! ### OpenAI credential pool (docs/LLD/7-performance.md §7.3, PLAN.md P0-7) -/

/-- State of `OpenAIClientPool` (docs/LLD/7-performance.md §7.3; the
implementation file `backend/app/services/openai_client.py` is not in
this snapshot, the LLD carries the listing).  The N credential keys are
modelled by their indices `0..numKeys-1`; `usage j` is the per-key
request counter (`self.usage[key]`), `current` the round-robin cursor. -/
structure OpenAIClientPool where
  numKeys : Nat
  current : Nat
  usage : Nat → Nat

/-- Fresh pool over `n` keys: cursor 0, every usage counter 0
(`self.current = 0; self.usage = 0 for each key`). -/
def mkPool (n : Nat) : OpenAIClientPool :=
  { numKeys := n, current := 0, usage := fun _ => 0 }

/-- `get_client` from the source: picks the key at the cursor, advances
the cursor round-robin, increments that key's usage counter, and
returns the picked key (the source wraps it in an `OpenAI` client). -/
def get_client (p : OpenAIClientPool) : Nat × OpenAIClientPool :=
  let key := p.current
  (key,
    { p with
      current := (p.current + 1) % p.numKeys,
      usage := fun j => if j = key then p.usage j + 1 else p.usage j })

/-- Pool state after one logical call. -/
def poolStep (p : OpenAIClientPool) : OpenAIClientPool := (get_client p).2

/-- Pool state after `m` logical calls on a fresh `n`-key pool. -/
def afterCalls (n m : Nat) : OpenAIClientPool := poolStep^[m] (mkPool n)

theorem numKeys_afterCalls (n m : Nat) : (afterCalls n m).numKeys = n := by
  induction m with
  | zero => rfl
  | succ m ih =>
    rw [afterCalls, Function.iterate_succ_apply']
    exact ih

theorem current_afterCalls (n m : Nat) : (afterCalls n m).current = m % n := by
  induction m with
  | zero => simp [afterCalls, mkPool]
  | succ m ih =>
    rw [afterCalls, Function.iterate_succ_apply']
    show ((poolStep^[m] (mkPool n)).current + 1) % (poolStep^[m] (mkPool n)).numKeys = _
    rw [show poolStep^[m] (mkPool n) = afterCalls n m from rfl, numKeys_afterCalls, ih,
      Nat.mod_add_mod]

theorem usage_afterCalls (n m j : Nat) :
    (afterCalls n m).usage j = (List.range m).countP (fun i => i % n == j) := by
  induction m with
  | zero => simp [afterCalls, mkPool]
  | succ m ih =>
    rw [afterCalls, Function.iterate_succ_apply']
    show (if j = (poolStep^[m] (mkPool n)).current then _ + 1 else _) = _
    rw [show poolStep^[m] (mkPool n) = afterCalls n m from rfl, current_afterCalls,
      List.range_succ, List.countP_append]
    by_cases hj : j = m % n
    · subst hj
      simp [ih]
    · have : (m % n == j) = false := by simpa using fun h => hj h.symm
      simp [hj, ih, this]

theorem countP_range_mul (n : Nat) (j : Nat) (hj : j < n) :
    ∀ k, (List.range (k * n)).countP (fun i => i % n == j) = k := by
  intro k
  induction k with
  | zero => simp
  | succ k ih =>
    have hrange : List.range ((k + 1) * n) =
        List.range (k * n) ++ (List.range n).map (fun x => k * n + x) := by
      rw [Nat.succ_mul, List.range_add]
    rw [hrange, List.countP_append, ih]
    have hmap : ((List.range n).map (fun x => k * n + x)).countP (fun i => i % n == j) =
        (List.range n).countP (fun i => i % n == j) := by
      rw [List.countP_map]
      refine List.countP_congr ?_
      intro i _
      simp [Function.comp, Nat.mul_add_mod']
    rw [hmap]
    have hone : (List.range n).countP (fun i => i % n == j) = 1 := by
      have h1 : (List.range n).countP (fun i => i % n == j) =
          (List.range n).countP (fun i => i == j) := by
        refine List.countP_congr ?_
        intro i hi
        rw [List.mem_range] at hi
        simp [Nat.mod_eq_of_lt hi]
      rw [h1]
      have : (List.range n).countP (fun i => i == j) = (List.range n).count j := by
        simp [List.count]
      rw [this]
      exact List.count_eq_one_of_mem (List.nodup_range n) (List.mem_range.mpr hj)
    omega

/-- C7: round-robin credential pool law.  On a fresh pool with `n`
keys: (a) the i-th logical call (counting from zero) is handed key
`i % n`; (b) each call bumps exactly the assigned key's request
counter by one and leaves every other counter unchanged; (c) after
`k * n` calls every key's counter equals `k` (uniform distribution). -/
theorem pool_round_robin (n : Nat) (_hn : 0 < n) :
    (∀ i, (get_client (afterCalls n i)).1 = i % n) ∧
    (∀ i, (afterCalls n (i + 1)).usage (i % n) = (afterCalls n i).usage (i % n) + 1 ∧
      ∀ j, j ≠ i % n → (afterCalls n (i + 1)).usage j = (afterCalls n i).usage j) ∧
    (∀ k j, j < n → (afterCalls n (k * n)).usage j = k) := by
  refine ⟨?_, ?_, ?_⟩
  · intro i
    show (afterCalls n i).current = i % n
    exact current_afterCalls n i
  · intro i
    have hstep : afterCalls n (i + 1) = poolStep (afterCalls n i) := by
      rw [afterCalls, Function.iterate_succ_apply']
      rfl
    constructor
    · rw [hstep]
      show (if i % n = (afterCalls n i).current then _ + 1 else _) = _
      rw [current_afterCalls]
      simp
    · intro j hj
      rw [hstep]
      show (if j = (afterCalls n i).current then _ + 1 else _) = _
      rw [current_afterCalls]
      simp [hj]
  · intro k j hj
    rw [usage_afterCalls]
    exact countP_range_mul n j hj k

/-- C7 witness: a 3-key pool; the 5th call (index 4) gets key 1, the
5th call bumps key 1's counter, and after 2*3 calls every counter is 2. -/
theorem pool_round_robin_spot :
    (get_client (afterCalls 3 4)).1 = 4 % 3 ∧
    (afterCalls 3 5).usage (4 % 3) = (afterCalls 3 4).usage (4 % 3) + 1 ∧
    (afterCalls 3 (2 * 3)).usage 0 = 2 ∧
    (afterCalls 3 (2 * 3)).usage 1 = 2 ∧
    (afterCalls 3 (2 * 3)).usage 2 = 2 :=
  ⟨(pool_round_robin 3 (by norm_num)).1 4,
   ((pool_round_robin 3 (by norm_num)).2.1 4).1,
   (pool_round_robin 3 (by norm_num)).2.2 2 0 (by norm_num),
   (pool_round_robin 3 (by norm_num)).2.2 2 1 (by norm_num),
   (pool_round_robin 3 (by norm_num)).2.2 2 2 (by norm_num)⟩

/-! ### Multi-query retriever merge (spec §4.5; `retrieve_multi_query`,
`backend/app/rag/retriever.py`, not in this snapshot) -/

/-- Modelled from the spec: a query-time retrieval candidate
(spec §3 `Candidate`): a chunk id together with the similarity score
one nearest-neighbor search assigned it. -/
structure Candidate where
  chunk_id : String
  similarity : ℚ
deriving Repr, DecidableEq

/-- Modelled from the spec: merging one candidate into the
deduplicated accumulator — candidates are deduplicated by `chunk_id`,
keeping the maximum similarity observed (spec §4.5).  The first entry
with the same `chunk_id` is updated in place; a new id is appended. -/
def mergeInto : List Candidate → Candidate → List Candidate
  | [], c => [c]
  | a :: rest, c =>
    if a.chunk_id = c.chunk_id then
      (if c.similarity > a.similarity then { a with similarity := c.similarity } else a) :: rest
    else
      a :: mergeInto rest c

/-- Modelled from the spec: `retrieve_multi_query`
(`backend/app/rag/retriever.py` is not in this snapshot) — all
per-variant result lists are merged and deduplicated by `chunk_id`,
keeping the maximum similarity across variants. -/
def retrieve_multi_query (variantResults : List (List Candidate)) : List Candidate :=
  variantResults.flatten.foldl mergeInto []

/-- Similarity recorded for a chunk id in a candidate list
(first occurrence). -/
def lookupSim : List Candidate → String → Option ℚ
  | [], _ => none
  | c :: rest, cid => if c.chunk_id = cid then some c.similarity else lookupSim rest cid

/-- Maximum similarity observed for a chunk id across a candidate
list, `none` when the id never occurs. -/
def maxSim : List Candidate → String → Option ℚ
  | [], _ => none
  | c :: rest, cid =>
    if c.chunk_id = cid then
      match maxSim rest cid with
      | none => some c.similarity
      | some m => some (max c.similarity m)
    else maxSim rest cid

/-- Max of two optional scores, treating `none` as absent. -/
def combineMax : Option ℚ → Option ℚ → Option ℚ
  | none, b => b
  | some a, none => some a
  | some a, some b => some (max a b)

theorem lookupSim_mergeInto (acc : List Candidate) (c : Candidate) (cid : String) :
    lookupSim (mergeInto acc c) cid =
      if c.chunk_id = cid then
        combineMax (lookupSim acc cid) (some c.similarity)
      else lookupSim acc cid := by
  induction acc with
  | nil =>
    by_cases h : c.chunk_id = cid <;> simp [mergeInto, lookupSim, combineMax, h]
  | cons a rest ih =>
    by_cases hac : a.chunk_id = c.chunk_id
    · by_cases hc : c.chunk_id = cid
      · have ha : a.chunk_id = cid := hac.trans hc
        rcases lt_or_le a.similarity c.similarity with hcs | hcs
        · have hmax : max a.similarity c.similarity = c.similarity := max_eq_right hcs.le
          simp [mergeInto, lookupSim, combineMax, hac, hc, ha, hcs, hmax]
        · have hncs : ¬ (a.similarity < c.similarity) := not_lt.mpr hcs
          have hmax : max a.similarity c.similarity = a.similarity := max_eq_left hcs
          simp [mergeInto, lookupSim, combineMax, hac, hc, ha, hncs, hmax]
      · have ha : ¬ a.chunk_id = cid := fun h => hc (hac ▸ h)
        rcases lt_or_le a.similarity c.similarity with hcs | hcs
        · simp [mergeInto, lookupSim, hac, hc, ha, hcs]
        · have hncs : ¬ (a.similarity < c.similarity) := not_lt.mpr hcs
          simp [mergeInto, lookupSim, hac, hc, ha, hncs]
    · by_cases haid : a.chunk_id = cid
      · have hc : ¬ c.chunk_id = cid := fun h => hac (haid.trans h.symm)
        have hac' : ¬ cid = c.chunk_id := fun h => hac (haid.trans h)
        simp [mergeInto, lookupSim, hac, hac', haid, hc]
      · simp [mergeInto, lookupSim, hac, haid, ih]

theorem lookupSim_foldl (cs : List Candidate) :
    ∀ (acc : List Candidate) (cid : String),
      lookupSim (cs.foldl mergeInto acc) cid =
        combineMax (lookupSim acc cid) (maxSim cs cid) := by
  induction cs with
  | nil =>
    intro acc cid
    cases h : lookupSim acc cid <;> simp [maxSim, combineMax, h]
  | cons c rest ih =>
    intro acc cid
    rw [List.foldl_cons, ih, lookupSim_mergeInto]
    by_cases hc : c.chunk_id = cid
    · simp only [maxSim, if_pos hc]
      cases hl : lookupSim acc cid <;> cases hm : maxSim rest cid <;>
        simp [combineMax, max_assoc, max_comm, max_left_comm]
    · simp [maxSim, hc]

theorem countP_mergeInto (acc : List Candidate) (c : Candidate) (cid : String) :
    (mergeInto acc c).countP (fun x => x.chunk_id == cid) =
      if c.chunk_id = cid then max (acc.countP (fun x => x.chunk_id == cid)) 1
      else acc.countP (fun x => x.chunk_id == cid) := by
  induction acc with
  | nil => by_cases h : c.chunk_id = cid <;> simp [mergeInto, h]
  | cons a rest ih =>
    by_cases hac : a.chunk_id = c.chunk_id
    · by_cases hc : c.chunk_id = cid
      · have ha : a.chunk_id = cid := hac.trans hc
        rcases lt_or_le a.similarity c.similarity with hcs | hcs <;>
          [simp [mergeInto, hac, hc, ha, hcs, List.countP_cons];
           simp [mergeInto, hac, hc, ha, not_lt.mpr hcs, List.countP_cons]]
      · have ha : ¬ a.chunk_id = cid := fun h => hc (hac ▸ h)
        rcases lt_or_le a.similarity c.similarity with hcs | hcs <;>
          [simp [mergeInto, hac, hc, ha, hcs, List.countP_cons];
           simp [mergeInto, hac, hc, ha, not_lt.mpr hcs, List.countP_cons]]
    · by_cases haid : a.chunk_id = cid
      · by_cases hc : c.chunk_id = cid
        · exact absurd (haid.trans hc.symm) hac
        · have hac' : ¬ cid = c.chunk_id := fun h => hac (haid.trans h)
          simp [mergeInto, hac, hac', haid, hc, List.countP_cons, ih]
      · simp [mergeInto, hac, haid, List.countP_cons, ih]

theorem countP_foldl_mergeInto (cs : List Candidate) :
    ∀ (acc : List Candidate) (cid : String),
      ((cs.foldl mergeInto acc).countP (fun x => x.chunk_id == cid)) =
        if cs.any (fun x => x.chunk_id == cid) then
          max (acc.countP (fun x => x.chunk_id == cid)) 1
        else acc.countP (fun x => x.chunk_id == cid) := by
  induction cs with
  | nil => intro acc cid; simp
  | cons c rest ih =>
    intro acc cid
    rw [List.foldl_cons, ih, countP_mergeInto]
    by_cases hc : c.chunk_id = cid
    · by_cases hr : rest.any (fun x => x.chunk_id == cid)
      · simp only [List.any_cons, hc]
        simp [hr]
      · simp [List.any_cons, hc, hr]
    · simp [List.any_cons, hc]

/-- C3: merge max-score law of `retrieve_multi_query` (spec §4.5).
Whenever some query variant returned a candidate with a given
`chunk_id`, the merged candidate list contains that `chunk_id` exactly
once, and the similarity recorded for it equals the maximum similarity
observed for that `chunk_id` across all variants. -/
theorem merge_max_score_law (variantResults : List (List Candidate)) (cid : String)
    (h : variantResults.flatten.any (fun x => x.chunk_id == cid) = true) :
    (retrieve_multi_query variantResults).countP (fun x => x.chunk_id == cid) = 1 ∧
    lookupSim (retrieve_multi_query variantResults) cid =
      maxSim variantResults.flatten cid := by
  constructor
  · rw [retrieve_multi_query, countP_foldl_mergeInto, if_pos h]
    simp [lookupSim]
  · rw [retrieve_multi_query, lookupSim_foldl]
    simp [lookupSim, combineMax]

/-- C3 witness: the chunk `c1` returned with similarity 0.7 by one
variant and 0.9 by another merges to a single candidate with
similarity 0.9 — the maximum, not an average or a sum. -/
theorem merge_max_score_law_spot :
    (retrieve_multi_query [[⟨"c1", 7/10⟩], [⟨"c1", 9/10⟩]]).countP
        (fun x => x.chunk_id == "c1") = 1 ∧
    lookupSim (retrieve_multi_query [[⟨"c1", 7/10⟩], [⟨"c1", 9/10⟩]]) "c1" =
      maxSim ([[Candidate.mk "c1" (7/10)], [Candidate.mk "c1" (9/10)]] : List (List Candidate)).flatten "c1" ∧
    lookupSim (retrieve_multi_query [[⟨"c1", 7/10⟩], [⟨"c1", 9/10⟩]]) "c1" = some (9/10) :=
  ⟨(merge_max_score_law [[⟨"c1", 7/10⟩], [⟨"c1", 9/10⟩]] "c1" (by decide)).1,
   (merge_max_score_law [[⟨"c1", 7/10⟩], [⟨"c1", 9/10⟩]] "c1" (by decide)).2,
   by norm_num [retrieve_multi_query, List.flatten, mergeInto, lookupSim]⟩

/-! ### Reranker final score and top-k output (spec §4.6; PLAN.md GAR
Phase 3, weights at orchestrator.py:236-241, file not in this snapshot) -/

/-- Modelled from the spec: a reranked candidate annotated with its
four contributing sub-scores (`backend/app/rag/reranker.py` is not in
this snapshot; spec §4.6 fixes the weighting formula). -/
structure ScoredCandidate where
  chunk_id : String
  llm_relevance_score : ℚ
  feedback_boost : ℚ
  tag_match_score : ℚ
  similarity_score : ℚ
deriving Repr, DecidableEq

/-- Modelled from the spec: the combined reranking score, weights
0.5 / 0.2 / 0.15 / 0.15 (spec §4.6, PLAN.md orchestrator.py:236-241). -/
def final_score (c : ScoredCandidate) : ℚ :=
  0.5 * c.llm_relevance_score + 0.2 * c.feedback_boost
    + 0.15 * c.tag_match_score + 0.15 * c.similarity_score

/-- Boolean comparison used to order candidates by descending
`final_score`. -/
def byFinalScoreDesc (a b : ScoredCandidate) : Bool :=
  decide (final_score b ≤ final_score a)

/-- Modelled from the spec: the reranker's output — candidates ordered
by descending `final_score`, truncated to the top `k` (spec §4.6
"Output: top-k passages by final_score"). -/
def rerank (k : Nat) (cands : List ScoredCandidate) : List ScoredCandidate :=
  (cands.mergeSort byFinalScoreDesc).take k

theorem byFinalScoreDesc_trans (a b c : ScoredCandidate) :
    byFinalScoreDesc a b = true → byFinalScoreDesc b c = true →
    byFinalScoreDesc a c = true := by
  simp only [byFinalScoreDesc, decide_eq_true_eq]
  exact fun h1 h2 => le_trans h2 h1

theorem byFinalScoreDesc_total (a b : ScoredCandidate) :
    (byFinalScoreDesc a b || byFinalScoreDesc b a) = true := by
  simp only [byFinalScoreDesc, Bool.or_eq_true, decide_eq_true_eq]
  exact (le_total (final_score b) (final_score a))

/-- C1: the reranker's output is the top-k by the weighted final
score.  For every input: (a) each returned candidate's `final_score`
is exactly `0.5·llm + 0.2·feedback + 0.15·tag + 0.15·similarity` of
its recorded sub-scores; (b) exactly `min k n` passages are returned;
(c) they are ordered by non-increasing `final_score`; (d) the output
together with some rest is a permutation of the input, and every
non-returned candidate scores no higher than every returned one. -/
theorem rerank_top_k (k : Nat) (cands : List ScoredCandidate) :
    (∀ c ∈ rerank k cands,
      final_score c = 0.5 * c.llm_relevance_score + 0.2 * c.feedback_boost
        + 0.15 * c.tag_match_score + 0.15 * c.similarity_score) ∧
    (rerank k cands).length = min k cands.length ∧
    (rerank k cands).Pairwise (fun a b => final_score b ≤ final_score a) ∧
    ∃ rest, cands.Perm (rerank k cands ++ rest) ∧
      ∀ b ∈ rest, ∀ a ∈ rerank k cands, final_score b ≤ final_score a := by
  have hperm : (cands.mergeSort byFinalScoreDesc).Perm cands :=
    List.mergeSort_perm cands byFinalScoreDesc
  have hsorted : (cands.mergeSort byFinalScoreDesc).Pairwise
      (fun a b => byFinalScoreDesc a b = true) :=
    List.sorted_mergeSort byFinalScoreDesc_trans byFinalScoreDesc_total cands
  refine ⟨fun c _ => rfl, ?_, ?_, ?_⟩
  · rw [rerank, List.length_take, hperm.length_eq]
  · refine ((hsorted.sublist (List.take_sublist k _)).imp ?_)
    intro a b h
    simpa [byFinalScoreDesc] using h
  · refine ⟨(cands.mergeSort byFinalScoreDesc).drop k, ?_, ?_⟩
    · rw [rerank, List.take_append_drop]
      exact hperm.symm
    · intro b hb a ha
      have hsplit := hsorted
      rw [← List.take_append_drop k (cands.mergeSort byFinalScoreDesc),
        List.pairwise_append] at hsplit
      have := hsplit.2.2 a ha b hb
      simpa [byFinalScoreDesc] using this

/-- C1 witness: three candidates, top 2 requested — the output length
law instantiated concretely, together with the full instantiated
top-k statement. -/
theorem rerank_top_k_spot :
    (rerank 2 [⟨"a", 1, 0, 0, 0⟩, ⟨"b", 0, 1, 0, 0⟩, ⟨"c", 0, 0, 1, 0⟩]).length =
      min 2 ([⟨"a", 1, 0, 0, 0⟩, ⟨"b", 0, 1, 0, 0⟩, ⟨"c", 0, 0, 1, 0⟩] : List ScoredCandidate).length ∧
    ∃ rest, ([⟨"a", 1, 0, 0, 0⟩, ⟨"b", 0, 1, 0, 0⟩, ⟨"c", 0, 0, 1, 0⟩] : List ScoredCandidate).Perm
        (rerank 2 [⟨"a", 1, 0, 0, 0⟩, ⟨"b", 0, 1, 0, 0⟩, ⟨"c", 0, 0, 1, 0⟩] ++ rest) ∧
      ∀ b ∈ rest, ∀ a ∈ rerank 2 [⟨"a", 1, 0, 0, 0⟩, ⟨"b", 0, 1, 0, 0⟩, ⟨"c", 0, 0, 1, 0⟩],
        final_score b ≤ final_score a :=
  ⟨(rerank_top_k 2 [⟨"a", 1, 0, 0, 0⟩, ⟨"b", 0, 1, 0, 0⟩, ⟨"c", 0, 0, 1, 0⟩]).2.1,
   (rerank_top_k 2 [⟨"a", 1, 0, 0, 0⟩, ⟨"b", 0, 1, 0, 0⟩, ⟨"c", 0, 0, 1, 0⟩]).2.2.2⟩

/-! ### Ingestion dedup invariant (spec §4.2 step 1, CLAUDE.md
`doc_exists_by_hash`, docs/LLD/8-error.md `doc.duplicate`) -/

/-- Modelled from the spec: the SHA-256 content hash computed from the
file bytes before parsing (spec §4.2 step 1; CLAUDE.md "SHA256 from
file content").  Only equality of hashes is relevant to dedup, so the
injective hash is modelled as the byte string itself. -/
def content_hash (bytes : String) : String := bytes

/-- Modelled from the spec: an indexed document as seen by the dedup
check — its content hash, owner and visibility (CLAUDE.md: the
duplicate check is scoped to `(doc_hash, owner_id, visibility)`). -/
structure StoredDoc where
  doc_hash : String
  owner : String
  visibility : String
deriving Repr, DecidableEq

/-- Modelled from the spec: `doc_exists_by_hash` of
`backend/app/vectorstore/store.py` (file not in this snapshot) —
whether a document with the same `(hash, owner, visibility)` scope is
already indexed. -/
def doc_exists_by_hash (docs : List StoredDoc) (h o v : String) : Bool :=
  docs.any (fun d => d.doc_hash == h && d.owner == o && d.visibility == v)

/-- Result of processing one uploaded file: newly indexed, or skipped
as a duplicate (a no-op, not an error — docs/LLD/8-error.md
`doc.duplicate`). -/
inductive UploadOutcome where
  | indexed
  | skipped
deriving Repr, DecidableEq

/-- Modelled from the spec: the hash-and-dedup step of the ingestion
pipeline (spec §4.2 steps 1 and 6): compute the content hash; if a
document with the same `(hash, owner, visibility)` exists, skip,
otherwise index a new document in that scope. -/
def uploadDoc (docs : List StoredDoc) (bytes owner vis : String) :
    UploadOutcome × List StoredDoc :=
  let h := content_hash bytes
  if doc_exists_by_hash docs h owner vis then (.skipped, docs)
  else (.indexed, docs ++ [{ doc_hash := h, owner := owner, visibility := vis }])

/-- Number of indexed documents in a given `(hash, owner, visibility)`
scope. -/
def countScope (docs : List StoredDoc) (h o v : String) : Nat :=
  docs.countP (fun d => d.doc_hash == h && d.owner == o && d.visibility == v)

theorem doc_exists_iff_countScope_pos (docs : List StoredDoc) (h o v : String) :
    doc_exists_by_hash docs h o v = true ↔ 0 < countScope docs h o v := by
  rw [doc_exists_by_hash, countScope, List.any_eq_true, List.countP_pos_iff]

theorem countScope_append (docs : List StoredDoc) (d : StoredDoc) (h o v : String) :
    countScope (docs ++ [d]) h o v =
      countScope docs h o v +
        (if d.doc_hash = h ∧ d.owner = o ∧ d.visibility = v then 1 else 0) := by
  rw [countScope, List.countP_append, countScope]
  by_cases hd : d.doc_hash = h ∧ d.owner = o ∧ d.visibility = v
  · simp [hd.1, hd.2.1, hd.2.2]
  · simp only [List.countP_cons, List.countP_nil]
    have : (d.doc_hash == h && d.owner == o && d.visibility == v) = false := by
      rcases not_and_or.mp hd with h1 | h2
      · simp [h1]
      · rcases not_and_or.mp h2 with h3 | h4
        · simp [h3]
        · simp [h4]
    simp [this, hd]

/-- C4: dedup invariant of the ingestion pipeline.  Starting from an
index with no document in the `(hash(bytes), o, v)` or
`(hash(bytes), o2, v2)` scope, where `(o2, v2)` differs from `(o, v)`:
the first upload of `bytes` under `(o, v)` is indexed; a second upload
of the identical bytes under the same `(o, v)` is skipped as a
duplicate no-op leaving the index unchanged, with exactly one
document in that scope; an upload of the identical bytes under
`(o2, v2)` is indexed instead, after which both scopes hold exactly
one document each (two distinct documents). -/
theorem dedup_invariant (docs : List StoredDoc) (bytes o v o2 v2 : String)
    (h1 : countScope docs (content_hash bytes) o v = 0)
    (h2 : countScope docs (content_hash bytes) o2 v2 = 0)
    (hdiff : o2 ≠ o ∨ v2 ≠ v) :
    (uploadDoc docs bytes o v).1 = .indexed ∧
    (uploadDoc (uploadDoc docs bytes o v).2 bytes o v).1 = .skipped ∧
    (uploadDoc (uploadDoc docs bytes o v).2 bytes o v).2 = (uploadDoc docs bytes o v).2 ∧
    countScope (uploadDoc (uploadDoc docs bytes o v).2 bytes o v).2 (content_hash bytes) o v = 1 ∧
    (uploadDoc (uploadDoc docs bytes o v).2 bytes o2 v2).1 = .indexed ∧
    countScope (uploadDoc (uploadDoc docs bytes o v).2 bytes o2 v2).2 (content_hash bytes) o v = 1 ∧
    countScope (uploadDoc (uploadDoc docs bytes o v).2 bytes o2 v2).2 (content_hash bytes) o2 v2 = 1 := by
  have hex1 : doc_exists_by_hash docs (content_hash bytes) o v = false := by
    rw [← Bool.not_eq_true, doc_exists_iff_countScope_pos, h1]
    omega
  have hstep1 : (uploadDoc docs bytes o v).2 =
      docs ++ [{ doc_hash := content_hash bytes, owner := o, visibility := v }] := by
    rw [uploadDoc]
    simp [hex1]
  have hcount1 : countScope (uploadDoc docs bytes o v).2 (content_hash bytes) o v = 1 := by
    rw [hstep1, countScope_append, h1]
    simp
  have hcount1' : countScope (uploadDoc docs bytes o v).2 (content_hash bytes) o2 v2 = 0 := by
    rw [hstep1, countScope_append, h2]
    have hne : ¬ (content_hash bytes = content_hash bytes ∧ o = o2 ∧ v = v2) := by
      rintro ⟨-, ho, hv⟩
      rcases hdiff with hd | hd
      · exact hd ho.symm
      · exact hd hv.symm
    show 0 + (if content_hash bytes = content_hash bytes ∧ o = o2 ∧ v = v2 then 1 else 0) = 0
    rw [if_neg hne]
  have hex2 : doc_exists_by_hash (uploadDoc docs bytes o v).2 (content_hash bytes) o v = true := by
    rw [doc_exists_iff_countScope_pos, hcount1]
    omega
  have hex3 : doc_exists_by_hash (uploadDoc docs bytes o v).2 (content_hash bytes) o2 v2 = false := by
    rw [← Bool.not_eq_true, doc_exists_iff_countScope_pos, hcount1']
    omega
  have hstep3 : (uploadDoc (uploadDoc docs bytes o v).2 bytes o2 v2).2 =
      (uploadDoc docs bytes o v).2 ++
        [{ doc_hash := content_hash bytes, owner := o2, visibility := v2 }] := by
    rw [uploadDoc]
    simp [hex3]
  refine ⟨?_, ?_, ?_, ?_, ?_, ?_, ?_⟩
  · rw [uploadDoc]; simp [hex1]
  · rw [uploadDoc]; simp [hex2]
  · rw [uploadDoc]; simp [hex2]
  · rw [uploadDoc]
    simp only [hex2, if_pos]
    exact hcount1
  · rw [uploadDoc]; simp [hex3]
  · rw [hstep3, countScope_append, hcount1]
    rcases hdiff with hd | hd <;> simp [hd]
  · rw [hstep3, countScope_append, hcount1']
    simp

/-- C4 witness: a fresh index; "alice"/public uploads a document
twice (second skipped), "bob"/public uploads the same bytes (indexed),
leaving one document per scope. -/
theorem dedup_invariant_spot :
    (uploadDoc [] "report-bytes" "alice" "public").1 = .indexed ∧
    (uploadDoc (uploadDoc [] "report-bytes" "alice" "public").2 "report-bytes" "alice" "public").1 = .skipped ∧
    (uploadDoc (uploadDoc [] "report-bytes" "alice" "public").2 "report-bytes" "alice" "public").2 =
      (uploadDoc [] "report-bytes" "alice" "public").2 ∧
    countScope (uploadDoc (uploadDoc [] "report-bytes" "alice" "public").2 "report-bytes" "alice" "public").2
      (content_hash "report-bytes") "alice" "public" = 1 ∧
    (uploadDoc (uploadDoc [] "report-bytes" "alice" "public").2 "report-bytes" "bob" "public").1 = .indexed ∧
    countScope (uploadDoc (uploadDoc [] "report-bytes" "alice" "public").2 "report-bytes" "bob" "public").2
      (content_hash "report-bytes") "alice" "public" = 1 ∧
    countScope (uploadDoc (uploadDoc [] "report-bytes" "alice" "public").2 "report-bytes" "bob" "public").2
      (content_hash "report-bytes") "bob" "public" = 1 :=
  dedup_invariant [] "report-bytes" "alice" "public" "bob" "public"
    (by decide) (by decide) (Or.inl (by decide))

/-! ### Feedback boost store (spec §4.7, docs/LLD/5-dataflow.md §5.3;
`feedback_store.upsert_boost`, file not in this snapshot) -/

/-- Per-chunk feedback counters (`fb_pos` / `fb_neg` in the ChromaDB
chunk metadata, docs/LLD/5-dataflow.md §5.3). -/
structure ChunkFeedback where
  fb_pos : Nat
  fb_neg : Nat
deriving Repr, DecidableEq

/-- A submitted vote, `"up"` or `"down"` (CLAUDE.md
`POST /api/feedback`). -/
inductive Vote where
  | up
  | down
deriving Repr, DecidableEq

/-- Modelled from the spec: one vote call increments exactly one
counter by one (spec §4.7 "an idempotent increment"). -/
def applyVote (c : ChunkFeedback) : Vote → ChunkFeedback
  | .up => { c with fb_pos := c.fb_pos + 1 }
  | .down => { c with fb_neg := c.fb_neg + 1 }

/-- Raw boost factor `1.0 + (fb_pos - fb_neg) * 0.1`
(docs/LLD/5-dataflow.md §5.3). -/
def raw_boost (c : ChunkFeedback) : ℚ :=
  1 + ((c.fb_pos : ℚ) - (c.fb_neg : ℚ)) * 0.1

/-- Clamping to `[lo, hi]`. -/
def clampQ (lo hi x : ℚ) : ℚ := max lo (min hi x)

/-- Modelled from the spec: `feedback_store.upsert_boost` — updates
the counters for the vote, recalculates the boost factor and returns
it with the acknowledgement; the factor is clamped to `[lo, hi]` to
avoid runaway amplification (spec §4.7; the spec does not fix the
bounds, so they are parameters here). -/
def upsert_boost (lo hi : ℚ) (c : ChunkFeedback) (v : Vote) : ChunkFeedback × ℚ :=
  let c2 := applyVote c v
  (c2, clampQ lo hi (raw_boost c2))

/-- C5: feedback vote law.  An `up` vote increments `fb_pos` by
exactly one and leaves `fb_neg` unchanged; a `down` vote does the
symmetric update; the factor returned with the acknowledgement is
`1.0 + 0.1 * (fb_pos − fb_neg)` of the updated counters, clamped to
`[lo, hi]` — and whenever that raw value already lies within the
clamp bounds, the returned factor equals it exactly. -/
theorem feedback_vote_boost (lo hi : ℚ) (c : ChunkFeedback) :
    ((upsert_boost lo hi c .up).1.fb_pos = c.fb_pos + 1 ∧
      (upsert_boost lo hi c .up).1.fb_neg = c.fb_neg) ∧
    ((upsert_boost lo hi c .down).1.fb_neg = c.fb_neg + 1 ∧
      (upsert_boost lo hi c .down).1.fb_pos = c.fb_pos) ∧
    (∀ v, (upsert_boost lo hi c v).2 =
      clampQ lo hi (1 + (((upsert_boost lo hi c v).1.fb_pos : ℚ)
        - ((upsert_boost lo hi c v).1.fb_neg : ℚ)) * 0.1)) ∧
    (∀ v, lo ≤ raw_boost (applyVote c v) → raw_boost (applyVote c v) ≤ hi →
      (upsert_boost lo hi c v).2 = 1 + (((upsert_boost lo hi c v).1.fb_pos : ℚ)
        - ((upsert_boost lo hi c v).1.fb_neg : ℚ)) * 0.1) := by
  refine ⟨⟨rfl, rfl⟩, ⟨rfl, rfl⟩, fun v => rfl, fun v hlo hhi => ?_⟩
  show clampQ lo hi (raw_boost (applyVote c v)) = raw_boost (applyVote c v)
  rw [clampQ, min_eq_right hhi, max_eq_right hlo]

/-- C5 witness: the documented example (CLAUDE.md `POST /api/feedback`
response): counters (2,1) plus an up vote give (3,1) and factor 1.2,
with clamp bounds [0.5, 2]. -/
theorem feedback_vote_boost_spot :
    ((upsert_boost 0.5 2 ⟨2, 1⟩ .up).1.fb_pos = 2 + 1 ∧
      (upsert_boost 0.5 2 ⟨2, 1⟩ .up).1.fb_neg = 1) ∧
    (upsert_boost 0.5 2 ⟨2, 1⟩ .up).2 = 1 + (((upsert_boost 0.5 2 ⟨2, 1⟩ .up).1.fb_pos : ℚ)
      - ((upsert_boost 0.5 2 ⟨2, 1⟩ .up).1.fb_neg : ℚ)) * 0.1 ∧
    (upsert_boost 0.5 2 ⟨2, 1⟩ .up).2 = 1.2 :=
  ⟨(feedback_vote_boost 0.5 2 ⟨2, 1⟩).1,
   (feedback_vote_boost 0.5 2 ⟨2, 1⟩).2.2.2 .up (by norm_num [raw_boost, applyVote])
     (by norm_num [raw_boost, applyVote]),
   by norm_num [upsert_boost, clampQ, raw_boost, applyVote]⟩

/-! ### Structure-aware chunking (spec §4.2 step 3; PLAN.md P0-2.5
`chunk_by_structure`, `backend/app/ingest/chunkers.py` not in this
snapshot) -/

/-- Modelled from the spec: a next-level sub-item of a structural
section (PLAN.md P0-2.5 item list, e.g. `1.`, `2.` under an article). -/
structure SubItem where
  number : String
  content : String
deriving Repr, DecidableEq

/-- Modelled from the spec: a top-level structural section (article)
as produced by the structure analyzer: its full title, the text
directly under it, and its next-level sub-items (PLAN.md P0-2.5). -/
structure DocSection where
  title : String
  body : String
  items : List SubItem
deriving Repr, DecidableEq

/-- Original text of a section: title, own body, then each sub-item's
content in order. -/
def sectionText (s : DocSection) : String :=
  s.title ++ s.body ++ String.join (s.items.map (fun it => it.content))

/-- Size of a section against the chunk size cap. -/
def sectionSize (s : DocSection) : Nat := (sectionText s).length

/-- A structure-aware chunk with its structural metadata
(PLAN.md P0-2.5 metadata schema). -/
structure StructChunk where
  content : String
  section_title : String
  hierarchy_level : Nat
  is_complete_article : Bool
deriving Repr, DecidableEq

/-- Modelled from the spec: chunking of one section — a section that
fits the size cap becomes exactly one chunk holding its whole text; an
oversized section is split at its next-level sub-items (header+body
first, then one chunk per sub-item), never at an arbitrary character
offset (spec §4.2 step 3). -/
def chunkSection (cap : Nat) (s : DocSection) : List StructChunk :=
  if sectionSize s ≤ cap then
    [{ content := sectionText s, section_title := s.title, hierarchy_level := 1,
       is_complete_article := true }]
  else
    { content := s.title ++ s.body, section_title := s.title, hierarchy_level := 1,
      is_complete_article := false } ::
      s.items.map (fun it =>
        { content := it.content, section_title := s.title, hierarchy_level := 2,
          is_complete_article := false })

/-- Modelled from the spec: `chunk_by_structure` of
`backend/app/ingest/chunkers.py` (file not in this snapshot) — chunk
every detected top-level section along its structural boundaries. -/
def chunk_by_structure (cap : Nat) (secs : List DocSection) : List StructChunk :=
  (secs.map (chunkSection cap)).flatten

/-- Concatenation of a list of text pieces, in order. -/
def concatTexts : List String → String
  | [] => ""
  | a :: l => a ++ concatTexts l

theorem chunk_by_structure_cons (cap : Nat) (s : DocSection) (rest : List DocSection) :
    chunk_by_structure cap (s :: rest) =
      chunkSection cap s ++ chunk_by_structure cap rest := by
  simp [chunk_by_structure]

/-- C6: chunk completeness.  For a document whose top-level structural
sections all fit the size cap, structure-aware chunking produces
exactly one chunk per section (N sections, N chunks), the
concatenation of the chunk contents reconstructs the concatenated
original section text, and every chunk is a whole section — it carries
its section's title, holds exactly that section's text, and is marked
a complete article, so no section is split at a character offset. -/
theorem chunk_completeness (cap : Nat) (secs : List DocSection)
    (h : ∀ s ∈ secs, sectionSize s ≤ cap) :
    (chunk_by_structure cap secs).length = secs.length ∧
    concatTexts ((chunk_by_structure cap secs).map (fun c => c.content)) =
      concatTexts (secs.map sectionText) ∧
    ∀ c ∈ chunk_by_structure cap secs, c.is_complete_article = true ∧
      ∃ s ∈ secs, c.content = sectionText s ∧ c.section_title = s.title := by
  induction secs with
  | nil => simp [chunk_by_structure]
  | cons s rest ih =>
    have hs : sectionSize s ≤ cap := h s (by simp)
    have hrest : ∀ x ∈ rest, sectionSize x ≤ cap := fun x hx => h x (by simp [hx])
    obtain ⟨ih1, ih2, ih3⟩ := ih hrest
    have hhead : chunkSection cap s =
        [{ content := sectionText s, section_title := s.title, hierarchy_level := 1,
           is_complete_article := true }] := by
      rw [chunkSection, if_pos hs]
    refine ⟨?_, ?_, ?_⟩
    · rw [chunk_by_structure_cons, hhead, List.length_append, ih1]
      simp [Nat.add_comm]
    · rw [chunk_by_structure_cons, hhead, List.map_append, List.map_cons, List.map_nil,
        List.singleton_append, List.map_cons]
      show sectionText s ++ _ = sectionText s ++ _
      rw [ih2]
    · intro c hc
      rw [chunk_by_structure_cons, hhead, List.mem_append] at hc
      rcases hc with hc | hc
      · rcases List.mem_singleton.mp hc with rfl
        exact ⟨rfl, s, by simp, rfl, rfl⟩
      · obtain ⟨hcomplete, s', hs', hcontent, htitle⟩ := ih3 c hc
        exact ⟨hcomplete, s', by simp [hs'], hcontent, htitle⟩

/-- C6 witness: two sections under a 1200-char cap chunk to exactly
two chunks whose concatenated contents equal the concatenated section
texts. -/
theorem chunk_completeness_spot :
    (chunk_by_structure 1200
      [⟨"Article 1 (Purpose)", " This policy sets vacation rules.", []⟩,
       ⟨"Article 2 (Scope)", "", [⟨"1.", " All employees."⟩]⟩]).length = 2 ∧
    concatTexts ((chunk_by_structure 1200
      [⟨"Article 1 (Purpose)", " This policy sets vacation rules.", []⟩,
       ⟨"Article 2 (Scope)", "", [⟨"1.", " All employees."⟩]⟩]).map (fun c => c.content)) =
      concatTexts (([⟨"Article 1 (Purpose)", " This policy sets vacation rules.", []⟩,
       ⟨"Article 2 (Scope)", "", [⟨"1.", " All employees."⟩]⟩] : List DocSection).map sectionText) :=
  ⟨((chunk_completeness 1200
      [⟨"Article 1 (Purpose)", " This policy sets vacation rules.", []⟩,
       ⟨"Article 2 (Scope)", "", [⟨"1.", " All employees."⟩]⟩] (by decide)).1),
   ((chunk_completeness 1200
      [⟨"Article 1 (Purpose)", " This policy sets vacation rules.", []⟩,
       ⟨"Article 2 (Scope)", "", [⟨"1.", " All employees."⟩]⟩] (by decide)).2.1)⟩

/-! ### Rerank result cache (spec §3 RerankCacheEntry, §4.6; PLAN.md
GAR Phase 4 Redis caching, `backend/app/rag/reranker.py` not in this
snapshot) -/

/-- Modelled from the spec: the reranker's Redis-backed cache plus the
Gateway's LLM-call counter (PLAN.md Phase 4: cache key from question +
chunk-id hash, metric `llm_calls`).  Each entry holds its key, its
absolute expiry time in seconds, and the cached ordering; the key hash
is modelled injectively as the pair itself. -/
structure RerankCacheState where
  entries : List ((String × List String) × Nat × List String)
  llm_calls : Nat
deriving Repr, DecidableEq

/-- Modelled from the spec: the cache key — question text plus the
sorted candidate chunk-id set (spec §3: key = hash(question text +
sorted candidate chunk ids)). -/
def cacheKey (question : String) (cands : List String) : String × List String :=
  (question, cands.mergeSort (fun a b => decide (a ≤ b)))

/-- Cache lookup at time `now`: an entry answers only before its
expiry (TTL semantics of the Redis `setex` store). -/
def lookupCache (entries : List ((String × List String) × Nat × List String))
    (key : String × List String) (now : Nat) : Option (List String) :=
  match entries.find? (fun e => e.1 == key) with
  | some e => if now < e.2.1 then some e.2.2 else none
  | none => none

/-- Modelled from the spec: the LLM scoring pass, a deterministic
judge (`scoreFn`) of each candidate's relevance to the question; the
resulting ordering is the candidates sorted by descending judged
score (spec §4.6, §9 "treat the LLM judge as a black box returning a
bounded numeric score"). -/
def llmOrder (scoreFn : String → String → ℚ) (question : String)
    (cands : List String) : List String :=
  cands.mergeSort (fun a b => decide (scoreFn question b ≤ scoreFn question a))

/-- Modelled from the spec: the cached rerank entry point — on a valid
cache hit the stored ordering is returned and no LLM call happens; on
a miss the ordering is computed (one LLM scoring call), stored with
expiry `now + ttl`, and returned (spec §4.6; PLAN.md Phase 4). -/
def rerank_cached (scoreFn : String → String → ℚ) (ttl : Nat)
    (st : RerankCacheState) (now : Nat) (question : String) (cands : List String) :
    List String × RerankCacheState :=
  let key := cacheKey question cands
  match lookupCache st.entries key now with
  | some cached => (cached, st)
  | none =>
    let ordering := llmOrder scoreFn question cands
    (ordering,
      { entries := (key, now + ttl, ordering) :: st.entries.filter (fun e => !(e.1 == key)),
        llm_calls := st.llm_calls + 1 })

/-- C8: cache idempotence.  If a rerank request at time `t1` finds no
valid cache entry for its `(question, candidate-id-set)` key, then a
second identical request at any `t2` within the TTL window returns
the identical ordering without any further LLM scoring call (the call
counter stays flat), the first request performed exactly one LLM
call, and both answers equal the freshly computed ordering. -/
theorem rerank_cache_idempotent (scoreFn : String → String → ℚ) (ttl : Nat)
    (st : RerankCacheState) (t1 t2 : Nat) (question : String) (cands : List String)
    (hfresh : lookupCache st.entries (cacheKey question cands) t1 = none)
    (hwin : t2 < t1 + ttl) :
    (rerank_cached scoreFn ttl st t1 question cands).1 = llmOrder scoreFn question cands ∧
    (rerank_cached scoreFn ttl (rerank_cached scoreFn ttl st t1 question cands).2
        t2 question cands).1 =
      (rerank_cached scoreFn ttl st t1 question cands).1 ∧
    (rerank_cached scoreFn ttl (rerank_cached scoreFn ttl st t1 question cands).2
        t2 question cands).2.llm_calls =
      (rerank_cached scoreFn ttl st t1 question cands).2.llm_calls ∧
    (rerank_cached scoreFn ttl st t1 question cands).2.llm_calls = st.llm_calls + 1 := by
  have hmiss : rerank_cached scoreFn ttl st t1 question cands =
      (llmOrder scoreFn question cands,
       { entries := (cacheKey question cands, t1 + ttl, llmOrder scoreFn question cands) ::
           st.entries.filter (fun e => !(e.1 == cacheKey question cands)),
         llm_calls := st.llm_calls + 1 }) := by
    rw [rerank_cached]
    simp only [hfresh]
  have hlook2 : lookupCache (rerank_cached scoreFn ttl st t1 question cands).2.entries
      (cacheKey question cands) t2 = some (llmOrder scoreFn question cands) := by
    rw [hmiss]
    simp [lookupCache, List.find?_cons, hwin]
  have hhit : rerank_cached scoreFn ttl (rerank_cached scoreFn ttl st t1 question cands).2
      t2 question cands = (llmOrder scoreFn question cands,
        (rerank_cached scoreFn ttl st t1 question cands).2) := by
    rw [rerank_cached]
    simp only [hlook2]
  refine ⟨?_, ?_, ?_, ?_⟩
  · rw [hmiss]
  · rw [hhit, hmiss]
  · rw [hhit]
  · rw [hmiss]

/-- C8 witness: an empty cache, a question over two candidate ids,
the second request 30 minutes into the 1-hour TTL. -/
theorem rerank_cache_idempotent_spot :
    (rerank_cached (fun _ _ => (0 : ℚ)) 3600 ⟨[], 0⟩ 0 "q" ["a", "b"]).1 =
      llmOrder (fun _ _ => (0 : ℚ)) "q" ["a", "b"] ∧
    (rerank_cached (fun _ _ => (0 : ℚ)) 3600
        (rerank_cached (fun _ _ => (0 : ℚ)) 3600 ⟨[], 0⟩ 0 "q" ["a", "b"]).2
        1800 "q" ["a", "b"]).1 =
      (rerank_cached (fun _ _ => (0 : ℚ)) 3600 ⟨[], 0⟩ 0 "q" ["a", "b"]).1 ∧
    (rerank_cached (fun _ _ => (0 : ℚ)) 3600
        (rerank_cached (fun _ _ => (0 : ℚ)) 3600 ⟨[], 0⟩ 0 "q" ["a", "b"]).2
        1800 "q" ["a", "b"]).2.llm_calls =
      (rerank_cached (fun _ _ => (0 : ℚ)) 3600 ⟨[], 0⟩ 0 "q" ["a", "b"]).2.llm_calls ∧
    (rerank_cached (fun _ _ => (0 : ℚ)) 3600 ⟨[], 0⟩ 0 "q" ["a", "b"]).2.llm_calls = 0 + 1 :=
  rerank_cache_idempotent (fun _ _ => (0 : ℚ)) 3600 ⟨[], 0⟩ 0 1800 "q" ["a", "b"]
    rfl (by norm_num)

/-! ### Frontend HTTP helper (frontend/src/api/http.js) -/

/-- Browser auth-token state as touched by `http`: the `auth_token`
entry of localStorage and of sessionStorage, and the window events
dispatched so far. -/
structure BrowserState where
  localToken : Option String
  sessionToken : Option String
  events : List String
deriving Repr, DecidableEq

/-- `clearAuthToken` (http.js:70-73): removes the `auth_token` entry
from both localStorage and sessionStorage. -/
def clearAuthToken (st : BrowserState) : BrowserState :=
  { st with localToken := none, sessionToken := none }

/-- A fetch response as consumed by the tail of `http`
(http.js:105-136); the body is kept as raw text (`parseJsonSafe`
falls back to the raw text anyway). -/
structure HttpResponse where
  status : Nat
  bodyText : String
deriving Repr, DecidableEq

/-- `res.ok` of the Fetch API: status in the inclusive range 200-299. -/
def resOk (res : HttpResponse) : Bool := decide (200 ≤ res.status ∧ res.status ≤ 299)

/-- The Error object thrown by `http` on a non-2xx response:
`err.status = res.status` and `err.data` from the parsed body
(http.js:128-135). -/
structure HttpError where
  status : Nat
  data : String
deriving Repr, DecidableEq

/-- Whether the first character list starts the second. -/
def charsStartWith : List Char → List Char → Bool
  | [], _ => true
  | _ :: _, [] => false
  | n :: ns, h :: hs => n == h && charsStartWith ns hs

/-- Whether the needle occurs at some position of the haystack. -/
def charsContain (needle : List Char) : List Char → Bool
  | [] => charsStartWith needle []
  | h :: hs => charsStartWith needle (h :: hs) || charsContain needle hs

/-- JS `hay.includes(needle)` substring test. -/
def containsSubstr (needle hay : String) : Bool :=
  charsContain needle.toList hay.toList

/-- Response-handling tail of `http` (http.js:105-136).  A 2xx
response returns the parsed body.  Otherwise: when the status is 401
and the request path is not the login request
(`path.includes('/auth/login')`), the stored auth token is cleared
from both storages and an `auth:changed` event is dispatched; then an
Error carrying the HTTP status is thrown.  No value is ever returned
on a non-2xx response. -/
def http_handle (path : String) (res : HttpResponse) (st : BrowserState) :
    Except HttpError String × BrowserState :=
  if resOk res then
    (.ok res.bodyText, st)
  else
    let isLoginRequest := containsSubstr "/auth/login" path
    let st1 :=
      if res.status = 401 ∧ isLoginRequest = false then
        { clearAuthToken st with events := st.events ++ ["auth:changed"] }
      else st
    (.error { status := res.status, data := res.bodyText }, st1)

/-- C10: on every non-2xx response, `http` throws an Error whose
`status` field equals the HTTP status code and never returns a
(partial) result; when the status is 401 and the path does not contain
`/auth/login`, the stored auth token is first removed from both
localStorage and sessionStorage and an `auth:changed` event is
dispatched, while a 401 from the login request leaves the stored
token (and the whole browser state) untouched. -/
theorem http_non2xx_behavior (path : String) (res : HttpResponse) (st : BrowserState)
    (h : resOk res = false) :
    (http_handle path res st).1 = .error { status := res.status, data := res.bodyText } ∧
    (∀ body, (http_handle path res st).1 ≠ .ok body) ∧
    (res.status = 401 → containsSubstr "/auth/login" path = false →
      (http_handle path res st).2.localToken = none ∧
      (http_handle path res st).2.sessionToken = none ∧
      (http_handle path res st).2.events = st.events ++ ["auth:changed"]) ∧
    (res.status = 401 → containsSubstr "/auth/login" path = true →
      (http_handle path res st).2 = st) := by
  refine ⟨?_, ?_, ?_, ?_⟩
  · simp [http_handle, h]
  · intro body
    simp [http_handle, h]
  · intro h401 hpath
    simp [http_handle, h, h401, hpath, clearAuthToken]
  · intro h401 hpath
    simp [http_handle, h, h401, hpath]

/-- C10 witness: a 401 on `/docs/my` with a stored token — error with
status 401, token cleared from both storages, `auth:changed`
dispatched; and a 401 on `/auth/login` — browser state untouched. -/
theorem http_non2xx_behavior_spot :
    (http_handle "/docs/my" ⟨401, "unauthorized"⟩ ⟨some "tok", some "tok", []⟩).1 =
      .error ⟨401, "unauthorized"⟩ ∧
    ((http_handle "/docs/my" ⟨401, "unauthorized"⟩ ⟨some "tok", some "tok", []⟩).2.localToken = none ∧
      (http_handle "/docs/my" ⟨401, "unauthorized"⟩ ⟨some "tok", some "tok", []⟩).2.sessionToken = none ∧
      (http_handle "/docs/my" ⟨401, "unauthorized"⟩ ⟨some "tok", some "tok", []⟩).2.events =
        ([] : List String) ++ ["auth:changed"]) ∧
    (http_handle "/auth/login" ⟨401, "bad credentials"⟩ ⟨some "tok", none, []⟩).2 =
      ⟨some "tok", none, []⟩ :=
  ⟨(http_non2xx_behavior "/docs/my" ⟨401, "unauthorized"⟩ ⟨some "tok", some "tok", []⟩
      (by decide)).1,
   (http_non2xx_behavior "/docs/my" ⟨401, "unauthorized"⟩ ⟨some "tok", some "tok", []⟩
      (by decide)).2.2.1 rfl (by decide),
   (http_non2xx_behavior "/auth/login" ⟨401, "bad credentials"⟩ ⟨some "tok", none, []⟩
      (by decide)).2.2.2 rfl (by decide)⟩

end ChatBot
